import Mathlib

/-!
Shallow embedding of the trading-analytics core of the trade-journal
repository: the summary builder `prepare_trading_data_summary` from
src/service/trading_analyzer.py together with the stop-loss and
R-multiple helpers `_analyze_stop_loss_data` and `_create_rr_section`
from src/util/generate_report.py.

Python floats are modelled as rationals (with an explicit marker for
values that the program sets to `float("inf")`), millisecond epoch
timestamps as natural numbers, and raised Python exceptions as `Except`
errors.  The records are taken after the string-to-number parsing steps
(`astype(float)`, `pd.to_numeric`), which no claim exercises.
-/

namespace TradeJournal

/-- One closed-position record after the string fields have been parsed:
`closedPnl` via `astype(float)` and the two timestamps via
`pd.to_numeric(..., unit="ms")` as millisecond epochs. -/
structure RawTrade where
  symbol : String
  closedPnl : ℚ
  createdTime : ℕ
  updatedTime : ℕ
  deriving DecidableEq, Repr

/-- The Python exceptions the embedded pipeline can raise. -/
inductive PyErr where
  | keyError
  | typeError
  deriving DecidableEq, Repr

/-- A Python float that is either an ordinary number or `float("inf")`. -/
inductive PyFloat where
  | num (q : ℚ)
  | inf
  deriving DecidableEq, Repr

/-- The value bound to `standard_risk` in the Python program: either the raw
environment string returned by `os.getenv("STANDARD_RISK", "")` or a number
taken from the user input. -/
inductive SRVal where
  | str (s : String)
  | num (q : ℚ)
  deriving DecidableEq, Repr

/-- A Gregorian calendar date. -/
structure CivilDate where
  year : ℕ
  month : ℕ
  day : ℕ
  deriving DecidableEq, Repr

/-- The RISK_MANAGEMENT sub-dictionary of the user input; the field is `none`
when the `standard_risk_per_trade` key is missing from that dictionary. -/
structure RiskManagement where
  standard_risk_per_trade : Option ℚ
  deriving DecidableEq, Repr

/-- The user-input dictionary handed to the summary builder; `riskManagement`
is `none` when the RISK_MANAGEMENT key is absent. -/
structure UserInput where
  riskManagement : Option RiskManagement
  strategy : List String
  psychology : List String
  reflection : String
  improvements : List String
  deriving DecidableEq, Repr

def msPerHour : ℕ := 3600000

def msPerDay : ℕ := 86400000

/-- Gregorian date from a day count since 1970-01-01: the standard
civil-from-days algorithm used by datetime libraries, specialised to
nonnegative day counts. -/
def civilFromDays (z0 : ℕ) : CivilDate :=
  let z := z0 + 719468
  let era := z / 146097
  let doe := z % 146097
  let yoe := (doe - doe / 1460 + doe / 36524 - doe / 146096) / 365
  let doy := doe - (365 * yoe + yoe / 4 - yoe / 100)
  let mp := (5 * doy + 2) / 153
  let d := doy - (153 * mp + 2) / 5 + 1
  let m := if mp < 10 then mp + 3 else mp - 9
  { year := yoe + era * 400 + (if m ≤ 2 then 1 else 0), month := m, day := d }

/-- Hour of day of a naive millisecond timestamp, as pandas `.dt.hour`
computes it on the unconverted (UTC) timestamps of the summary builder. -/
def utc_hour (ms : ℕ) : ℕ := ms / msPerHour % 24

/-- Calendar date of a naive millisecond timestamp, as pandas `.dt.date`
computes it on the unconverted (UTC) timestamps of the summary builder. -/
def utc_date (ms : ℕ) : CivilDate := civilFromDays (ms / msPerDay)

def dayNames : List String :=
  ["Sunday", "Monday", "Tuesday", "Wednesday", "Thursday", "Friday", "Saturday"]

/-- pandas `.dt.day_name()` of a naive millisecond timestamp
(1970-01-01 was a Thursday). -/
def day_name (ms : ℕ) : String := dayNames.getD ((ms / msPerDay + 4) % 7) "Sunday"

/-- Asia/Bangkok is UTC+7 with no daylight saving. -/
def bangkokOffsetMs : ℕ := 7 * msPerHour

/-- The `hour_of_day` column of `generate_html_report`, which first runs
`tz_localize("UTC").tz_convert("Asia/Bangkok")` on `createdTime`. -/
def report_hour_of_day (ms : ℕ) : ℕ := utc_hour (ms + bangkokOffsetMs)

/-- The `date` column of `generate_html_report`, likewise derived after the
conversion to Asia/Bangkok. -/
def report_date (ms : ℕ) : CivilDate := utc_date (ms + bangkokOffsetMs)

def closedPnls (pnl : List RawTrade) : List ℚ := pnl.map (·.closedPnl)

/-- The rows with `closedPnl > 0` (strict, as in `df["closedPnl"] > 0`). -/
def winners (pnl : List RawTrade) : List RawTrade :=
  pnl.filter (fun t => decide (0 < t.closedPnl))

/-- The rows with `closedPnl < 0` (strict, as in `df["closedPnl"] < 0`). -/
def losers (pnl : List RawTrade) : List RawTrade :=
  pnl.filter (fun t => decide (t.closedPnl < 0))

def win_count (pnl : List RawTrade) : ℕ := (winners pnl).length

def loss_count (pnl : List RawTrade) : ℕ := (losers pnl).length

def total_pnl (pnl : List RawTrade) : ℚ := (closedPnls pnl).sum

def win_sum (pnl : List RawTrade) : ℚ := ((winners pnl).map (·.closedPnl)).sum

def loss_sum (pnl : List RawTrade) : ℚ := ((losers pnl).map (·.closedPnl)).sum

def listMean (l : List ℚ) : ℚ := l.sum / (l.length : ℚ)

/-- `win_rate = win_count / total_trades if total_trades > 0 else 0`. -/
def win_rate (pnl : List RawTrade) : ℚ :=
  if 0 < pnl.length then (win_count pnl : ℚ) / (pnl.length : ℚ) else 0

/-- `avg_win = df.loc[df["closedPnl"] > 0, "closedPnl"].mean() if win_count > 0 else 0`. -/
def avg_win (pnl : List RawTrade) : ℚ :=
  if 0 < win_count pnl then listMean ((winners pnl).map (·.closedPnl)) else 0

/-- `avg_loss = df.loc[df["closedPnl"] < 0, "closedPnl"].mean() if loss_count > 0 else 0`. -/
def avg_loss (pnl : List RawTrade) : ℚ :=
  if 0 < loss_count pnl then listMean ((losers pnl).map (·.closedPnl)) else 0

/-- `profit_factor = abs(win_sum / loss_sum) if loss_sum != 0 else float("inf")`,
lines 234-241 of trading_analyzer.py. -/
def profit_factor (pnl : List RawTrade) : PyFloat :=
  if loss_sum pnl = 0 then .inf else .num |win_sum pnl / loss_sum pnl|

/-- `reward_risk_ratio = float(abs(avg_win / avg_loss)) if avg_loss != 0 else float("inf")`. -/
def reward_risk_ratio (pnl : List RawTrade) : PyFloat :=
  if avg_loss pnl = 0 then .inf else .num |avg_win pnl / avg_loss pnl|

/-- `avg_win_r = avg_win / standard_risk if standard_risk > 0 else 0`. -/
def avg_win_r (pnl : List RawTrade) (sr : ℚ) : ℚ :=
  if 0 < sr then avg_win pnl / sr else 0

/-- `avg_loss_r = abs(avg_loss) / standard_risk if standard_risk > 0 else 0`. -/
def avg_loss_r (pnl : List RawTrade) (sr : ℚ) : ℚ :=
  if 0 < sr then |avg_loss pnl| / sr else 0

/-- First-appearance deduplication, the order `df["symbol"].unique()` yields. -/
def uniqueAux (seen : List String) : List String → List String
  | [] => []
  | s :: rest =>
    if s ∈ seen then uniqueAux seen rest else s :: uniqueAux (s :: seen) rest

def unique_symbols (pnl : List RawTrade) : List String :=
  uniqueAux [] (pnl.map (·.symbol))

/-- `symbol_df = df[df["symbol"] == symbol]` (exact string match). -/
def symbol_trades (pnl : List RawTrade) (s : String) : List RawTrade :=
  pnl.filter (fun t => decide (t.symbol = s))

/-- Per-instrument aggregate row of the `symbols` mapping. -/
structure SymbolPerformance where
  total_pnl : ℚ
  trade_count : ℕ
  win_rate : ℚ
  avg_profit : ℚ
  deriving DecidableEq, Repr

/-- The per-symbol block of lines 244-253 of trading_analyzer.py; the win
rate is `(symbol_df["closedPnl"] > 0).mean()`. -/
def symbol_performance (pnl : List RawTrade) (s : String) : SymbolPerformance :=
  let g := symbol_trades pnl s
  { total_pnl := (g.map (·.closedPnl)).sum
    trade_count := g.length
    win_rate := ((g.filter (fun t => decide (0 < t.closedPnl))).length : ℚ) / (g.length : ℚ)
    avg_profit := listMean (g.map (·.closedPnl)) }

/-- The `symbol_performance` dictionary in `unique()` (first appearance) order. -/
def symbols_dict (pnl : List RawTrade) : List (String × SymbolPerformance) :=
  (unique_symbols pnl).map (fun s => (s, symbol_performance pnl s))

/-- The `hour` column: no timezone conversion happens in the summary builder,
so this is the UTC hour. -/
def hour_of (t : RawTrade) : ℕ := utc_hour t.createdTime

def hour_trades (pnl : List RawTrade) (h : ℕ) : List RawTrade :=
  pnl.filter (fun t => decide (hour_of t = h))

/-- The group keys of `df.groupby("hour")`, in the ascending order the
groupby produces (its default sorts keys). -/
def hours_with_data (pnl : List RawTrade) : List ℕ :=
  (List.range 24).filter (fun h => pnl.any (fun t => decide (hour_of t = h)))

def hour_mean (pnl : List RawTrade) (h : ℕ) : ℚ :=
  listMean ((hour_trades pnl h).map (·.closedPnl))

/-- The mean/sum/count aggregate of `df.groupby("hour")["closedPnl"]`,
reshaped to one row per hour. -/
def hourly_performance (pnl : List RawTrade) : List (ℕ × ℚ × ℚ × ℕ) :=
  (hours_with_data pnl).map (fun h =>
    (h, hour_mean pnl h, ((hour_trades pnl h).map (·.closedPnl)).sum,
      (hour_trades pnl h).length))

def day_of (t : RawTrade) : String := day_name t.createdTime

/-- The seven weekday names in alphabetical order, the order in which a
pandas groupby over `day_name()` strings sorts its keys. -/
def dayNamesAlphabetical : List String :=
  ["Friday", "Monday", "Saturday", "Sunday", "Thursday", "Tuesday", "Wednesday"]

def day_trades (pnl : List RawTrade) (d : String) : List RawTrade :=
  pnl.filter (fun t => decide (day_of t = d))

def days_with_data (pnl : List RawTrade) : List String :=
  dayNamesAlphabetical.filter (fun d => pnl.any (fun t => decide (day_of t = d)))

def day_mean (pnl : List RawTrade) (d : String) : ℚ :=
  listMean ((day_trades pnl d).map (·.closedPnl))

def daily_performance (pnl : List RawTrade) : List (String × ℚ × ℚ × ℕ) :=
  (days_with_data pnl).map (fun d =>
    (d, day_mean pnl d, ((day_trades pnl d).map (·.closedPnl)).sum,
      (day_trades pnl d).length))

/-- pandas `idxmax`: the index of the first occurrence of the maximal value;
the fold replaces the candidate only on a strict improvement. -/
def idxmax {κ : Type} (f : κ → ℚ) : List κ → Option κ
  | [] => none
  | k :: ks => some (ks.foldl (fun b c => if f b < f c then c else b) k)

/-- pandas `idxmin`: the index of the first occurrence of the minimal value. -/
def idxmin {κ : Type} (f : κ → ℚ) : List κ → Option κ
  | [] => none
  | k :: ks => some (ks.foldl (fun b c => if f c < f b then c else b) k)

/-- `best_hour = int(df.groupby("hour")["closedPnl"].mean().idxmax())`,
`None` when there are no rows. -/
def best_hour (pnl : List RawTrade) : Option ℕ :=
  idxmax (hour_mean pnl) (hours_with_data pnl)

def worst_hour (pnl : List RawTrade) : Option ℕ :=
  idxmin (hour_mean pnl) (hours_with_data pnl)

def best_day (pnl : List RawTrade) : Option String :=
  idxmax (day_mean pnl) (days_with_data pnl)

def worst_day (pnl : List RawTrade) : Option String :=
  idxmin (day_mean pnl) (days_with_data pnl)

/-- `duration_hours = (updatedTime - createdTime).total_seconds() / 3600`. -/
def duration_hours (t : RawTrade) : ℚ :=
  ((t.updatedTime : ℚ) - (t.createdTime : ℚ)) / 1000 / 3600

def win_duration_hours (pnl : List RawTrade) : ℚ :=
  if 0 < win_count pnl then listMean ((winners pnl).map duration_hours) else 0

def loss_duration_hours (pnl : List RawTrade) : ℚ :=
  if 0 < loss_count pnl then listMean ((losers pnl).map duration_hours) else 0

def listMinNat : List ℕ → ℕ
  | [] => 0
  | c :: cs => cs.foldl min c

def listMaxNat : List ℕ → ℕ
  | [] => 0
  | c :: cs => cs.foldl max c

def listMaxQ : List ℚ → ℚ
  | [] => 0
  | c :: cs => cs.foldl max c

def created_times (pnl : List RawTrade) : List ℕ := pnl.map (·.createdTime)

def period_start_ms (pnl : List RawTrade) : ℕ := listMinNat (created_times pnl)

def period_end_ms (pnl : List RawTrade) : ℕ := listMaxNat (created_times pnl)

/-- `(df["createdTime"].max() - df["createdTime"].min()).days + 1`. -/
def period_days (pnl : List RawTrade) : ℕ :=
  (period_end_ms pnl - period_start_ms pnl) / msPerDay + 1

structure PeriodInfo where
  start : CivilDate
  endDate : CivilDate
  days : ℕ
  deriving DecidableEq, Repr

structure OverallPerformance where
  total_pnl : ℚ
  win_rate : ℚ
  total_trades : ℕ
  winning_trades : ℕ
  losing_trades : ℕ
  profit_factor : PyFloat
  deriving DecidableEq, Repr

structure RiskReward where
  avg_win : ℚ
  avg_loss : ℚ
  avg_win_r : ℚ
  avg_loss_r : ℚ
  reward_risk_ratio : PyFloat
  deriving DecidableEq, Repr

structure TimePatterns where
  best_hour : Option ℕ
  worst_hour : Option ℕ
  best_day : Option String
  worst_day : Option String
  win_duration_hours : ℚ
  loss_duration_hours : ℚ
  hourly_performance : List (ℕ × ℚ × ℚ × ℕ)
  daily_performance : List (String × ℚ × ℚ × ℕ)
  deriving DecidableEq, Repr

structure UserReflections where
  strategy : List String
  psychological_issues : List String
  personal_reflection : String
  improvement_goals : List String
  deriving DecidableEq, Repr

/-- The `summary_dict` produced by `prepare_trading_data_summary`. -/
structure TradingSummary where
  period : PeriodInfo
  overall_performance : OverallPerformance
  risk_reward : RiskReward
  symbols : List (String × SymbolPerformance)
  time_patterns : TimePatterns
  user_reflections : Option UserReflections
  deriving DecidableEq, Repr

/-- `summary_dict["user_reflections"]`, added only when `user_input` is truthy. -/
def user_reflections_of (ui : Option UserInput) : Option UserReflections :=
  match ui with
  | none => none
  | some u =>
    some { strategy := u.strategy, psychological_issues := u.psychology,
           personal_reflection := u.reflection, improvement_goals := u.improvements }

/-- Lines 225-230 of trading_analyzer.py: `standard_risk` starts as the module
constant STANDARD_RISK (the *string* `os.getenv("STANDARD_RISK", "")` from
src/constants/env.py) and is replaced by
`user_input["RISK_MANAGEMENT"].get("standard_risk_per_trade", 9)` only when
the user input carries a RISK_MANAGEMENT key. -/
def resolve_standard_risk (env : String) (ui : Option UserInput) : SRVal :=
  match ui with
  | none => .str env
  | some u =>
    match u.riskManagement with
    | none => .str env
    | some rm => .num (rm.standard_risk_per_trade.getD 9)

/-- The summary value assembled at lines 276-330 of trading_analyzer.py, for
an already numeric `standard_risk`. -/
def build_summary (pnl : List RawTrade) (ui : Option UserInput) (sr : ℚ) :
    TradingSummary :=
  { period :=
      { start := utc_date (period_start_ms pnl)
        endDate := utc_date (period_end_ms pnl)
        days := period_days pnl }
    overall_performance :=
      { total_pnl := total_pnl pnl
        win_rate := win_rate pnl
        total_trades := pnl.length
        winning_trades := win_count pnl
        losing_trades := loss_count pnl
        profit_factor := profit_factor pnl }
    risk_reward :=
      { avg_win := avg_win pnl
        avg_loss := avg_loss pnl
        avg_win_r := avg_win_r pnl sr
        avg_loss_r := avg_loss_r pnl sr
        reward_risk_ratio := reward_risk_ratio pnl }
    symbols := symbols_dict pnl
    time_patterns :=
      { best_hour := best_hour pnl
        worst_hour := worst_hour pnl
        best_day := best_day pnl
        worst_day := worst_day pnl
        win_duration_hours := win_duration_hours pnl
        loss_duration_hours := loss_duration_hours pnl
        hourly_performance := hourly_performance pnl
        daily_performance := daily_performance pnl }
    user_reflections := user_reflections_of ui }

/-- `prepare_trading_data_summary` of trading_analyzer.py.  On an empty input
list `pd.DataFrame([])` has no columns, so `df["closedPnl"]` raises KeyError
both in the try block and in its textually identical fallback, and the
exception escapes.  When `standard_risk` is still the environment *string*,
the guard `standard_risk > 0` raises TypeError (Python 3 refuses str-int
comparison) before the summary dict is built. -/
def prepare_trading_data_summary (env : String) (pnl : List RawTrade)
    (ui : Option UserInput) : Except PyErr TradingSummary :=
  if pnl.isEmpty then .error .keyError
  else
    match resolve_standard_risk env ui with
    | .str _ => .error .typeError
    | .num sr => .ok (build_summary pnl ui sr)

/-- `full_stop_threshold = 0.05` in `_analyze_stop_loss_data`. -/
def full_stop_threshold : ℚ := 5 / 100

/-- `full_stop_min = standard_risk * (1 - full_stop_threshold)`. -/
def full_stop_min (sr : ℚ) : ℚ := sr * (1 - full_stop_threshold)

/-- `full_stop_max = standard_risk * (1 + full_stop_threshold)`. -/
def full_stop_max (sr : ℚ) : ℚ := sr * (1 + full_stop_threshold)

/-- The row predicate of the full-stop selection:
`(abs(closedPnl) >= full_stop_min) & (abs(closedPnl) <= full_stop_max)`. -/
def is_full_stop (sr : ℚ) (t : RawTrade) : Bool :=
  decide (full_stop_min sr ≤ |t.closedPnl|) && decide (|t.closedPnl| ≤ full_stop_max sr)

/-- `_analyze_stop_loss_data` of generate_report.py: the count of full stops
among losing trades, and `partial_stops = losing_trades.shape[0] - full_stops`. -/
def analyze_stop_loss_data (pnl : List RawTrade) (sr : ℚ) : ℕ × ℕ :=
  let losing := losers pnl
  let full_stops := (losing.filter (is_full_stop sr)).length
  (full_stops, losing.length - full_stops)

/-- `biggest_win_usd` of `_create_rr_section`: max of the positive pnls, 0
when there are none. -/
def biggest_win_usd (pnl : List RawTrade) : ℚ :=
  if 0 < win_count pnl then listMaxQ ((winners pnl).map (·.closedPnl)) else 0

/-- `biggest_win_r = biggest_win_usd / standard_risk if standard_risk > 0 else 0`. -/
def biggest_win_r (pnl : List RawTrade) (sr : ℚ) : ℚ :=
  if 0 < sr then biggest_win_usd pnl / sr else 0

/-- The standard risk used by the report renderer, lines 242-245 of
generate_report.py: `user_data.get("RISK_MANAGEMENT", {}).get("standard_risk_per_trade", 9)`;
always numeric, defaulting to 9. -/
def report_standard_risk (ui : UserInput) : ℚ :=
  match ui.riskManagement with
  | none => 9
  | some rm => rm.standard_risk_per_trade.getD 9

/-- Projection used to observe the best hour of a (possibly failed) run. -/
def summaryBestHour : Except PyErr TradingSummary → Option (Option ℕ)
  | .ok s => some s.time_patterns.best_hour
  | .error _ => none

/-- Projection used to observe the period start date of a run. -/
def summaryPeriodStart : Except PyErr TradingSummary → Option CivilDate
  | .ok s => some s.period.start
  | .error _ => none

/-- Projection used to observe the profit factor of a run. -/
def summaryProfitFactor : Except PyErr TradingSummary → Option PyFloat
  | .ok s => some s.overall_performance.profit_factor
  | .error _ => none

/-- A trade created at 2024-01-01T23:30:00Z (millisecond epoch 1704151800000). -/
def tzTrade : RawTrade :=
  { symbol := "BTCUSDT", closedPnl := 5, createdTime := 1704151800000,
    updatedTime := 1704155400000 }

/-- A single zero-pnl trade. -/
def zeroTrade : RawTrade :=
  { symbol := "BTCUSDT", closedPnl := 0, createdTime := 1704151800000,
    updatedTime := 1704155400000 }

/-- A single losing trade. -/
def lossTrade : RawTrade :=
  { symbol := "ETHUSDT", closedPnl := -5, createdTime := 1704067200000,
    updatedTime := 1704070800000 }

/-- User input whose RISK_MANAGEMENT carries a standard risk of 10. -/
def uiRM : UserInput :=
  { riskManagement := some { standard_risk_per_trade := some 10 },
    strategy := [], psychology := [], reflection := "", improvements := [] }

/-- A trade with a given closed pnl, for exercising the stop classifier. -/
def mkStopTrade (q : ℚ) : RawTrade :=
  { symbol := "S", closedPnl := q, createdTime := 0, updatedTime := 0 }

/-- A winning trade at UTC hour 0. -/
def w8a : RawTrade :=
  { symbol := "A", closedPnl := 3, createdTime := 0, updatedTime := 0 }

/-- A losing trade at UTC hour 1. -/
def w8b : RawTrade :=
  { symbol := "A", closedPnl := -2, createdTime := 3600000, updatedTime := 3600000 }

/-- Claim C1: a trade created at 2024-01-01T23:30:00Z (epoch 1704151800000 ms)
is bucketed by the summary builder at UTC hour 23 and UTC date 2024-01-01 —
not at the UTC+7 values hour 6 and 2024-01-02 the claim requires — while the
report renderer, which does convert to Asia/Bangkok, derives hour 6 and
2024-01-02 for the same instant. -/
theorem C1_timezone_divergence :
    summaryBestHour (prepare_trading_data_summary "" [tzTrade] (some uiRM))
      = some (some 23) ∧
    summaryBestHour (prepare_trading_data_summary "" [tzTrade] (some uiRM))
      ≠ some (some 6) ∧
    summaryPeriodStart (prepare_trading_data_summary "" [tzTrade] (some uiRM))
      = some { year := 2024, month := 1, day := 1 } ∧
    summaryPeriodStart (prepare_trading_data_summary "" [tzTrade] (some uiRM))
      ≠ some { year := 2024, month := 1, day := 2 } ∧
    report_hour_of_day tzTrade.createdTime = 6 ∧
    report_date tzTrade.createdTime = { year := 2024, month := 1, day := 2 } := by
  decide

/-- Claim C2: on the empty trade list the summary builder raises (the empty
DataFrame has no closedPnl column, and the exception handler falls back to
the same failing code), instead of returning the degenerate summary the
claim describes. -/
theorem C2_empty_input_raises (env : String) (ui : Option UserInput) :
    prepare_trading_data_summary env [] ui = .error .keyError := rfl

/-- Claim C3 counterexample: for a single trade with closedPnl = 0 (both the
win sum and the loss sum are zero) the produced profit factor is
float("inf"), not the 0 the claim states. -/
theorem C3_cex_profit_factor_zero_trades :
    summaryProfitFactor (prepare_trading_data_summary "" [zeroTrade] (some uiRM))
      = some .inf ∧
    summaryProfitFactor (prepare_trading_data_summary "" [zeroTrade] (some uiRM))
      ≠ some (.num 0) := by
  decide

/-- Claim C3 (amended): profitFactor = |sum positive| / |sum negative| when
the loss sum is nonzero, and +infinity whenever the loss sum is zero —
including when the win sum is zero as well. -/
theorem C3_profit_factor (pnl : List RawTrade) :
    (loss_sum pnl ≠ 0 →
      profit_factor pnl = .num (|win_sum pnl| / |loss_sum pnl|)) ∧
    (loss_sum pnl = 0 → profit_factor pnl = .inf) := by
  constructor
  · intro h
    simp [profit_factor, h, abs_div]
  · intro h
    simp [profit_factor, h]

/-- Claim C3 witness: the amended statement evaluated on one losing trade. -/
theorem C3_profit_factor_witness :
    loss_sum [lossTrade] ≠ 0 ∧
    profit_factor [lossTrade] = .num (|win_sum [lossTrade]| / |loss_sum [lossTrade]|) := by
  have h5 : loss_sum [lossTrade] ≠ 0 := by simp [loss_sum, losers, lossTrade]
  exact ⟨h5, (C3_profit_factor [lossTrade]).1 h5⟩

/-- Claim C5: with any nonempty trade list and no user-supplied override, the
standard risk stays the environment string from os.getenv, and the guard
standard_risk > 0 raises TypeError — the R computations throw instead of
returning 0. -/
theorem C5_env_standard_risk_raises (env : String) (t : RawTrade)
    (rest : List RawTrade) :
    prepare_trading_data_summary env (t :: rest) none = .error .typeError := rfl

/-- Claim C6 counterexample: with neither an override nor a usable global
configuration the summary builder raises TypeError; the documented default 9
is never applied on this path. -/
theorem C6_cex_no_default_nine :
    prepare_trading_data_summary "" [lossTrade] none = .error .typeError ∧
    prepare_trading_data_summary "" [lossTrade] none
      ≠ .ok (build_summary [lossTrade] none 9) :=
  ⟨rfl, fun h => Except.noConfusion h⟩

/-- Claim C6 (amended): a user-supplied standard_risk_per_trade override wins;
the default 9 applies exactly when a RISK_MANAGEMENT section is present
without that key; with no RISK_MANAGEMENT section the builder keeps the raw
environment string and raises TypeError on any nonempty input. -/
theorem C6_standard_risk_resolution :
    (∀ (env : String) (u : UserInput) (rm : RiskManagement) (q : ℚ),
        u.riskManagement = some rm → rm.standard_risk_per_trade = some q →
        resolve_standard_risk env (some u) = .num q) ∧
    (∀ (env : String) (u : UserInput) (rm : RiskManagement),
        u.riskManagement = some rm → rm.standard_risk_per_trade = none →
        resolve_standard_risk env (some u) = .num 9) ∧
    (∀ (env : String) (pnl : List RawTrade) (ui : Option UserInput) (sr : ℚ),
        pnl ≠ [] → resolve_standard_risk env ui = .num sr →
        prepare_trading_data_summary env pnl ui = .ok (build_summary pnl ui sr)) ∧
    (∀ (env : String) (u : UserInput), u.riskManagement = none →
        resolve_standard_risk env (some u) = .str env) ∧
    (∀ env : String, resolve_standard_risk env none = .str env) ∧
    (∀ (env : String) (t : RawTrade) (rest : List RawTrade)
        (ui : Option UserInput) (s : String),
        resolve_standard_risk env ui = .str s →
        prepare_trading_data_summary env (t :: rest) ui = .error .typeError) := by
  refine ⟨?_, ?_, ?_, ?_, ?_, ?_⟩
  · intro env u rm q hrm hq
    simp [resolve_standard_risk, hrm, hq]
  · intro env u rm hrm hq
    simp [resolve_standard_risk, hrm, hq]
  · intro env pnl ui sr hne hres
    cases pnl with
    | nil => exact absurd rfl hne
    | cons t rest =>
      simp [prepare_trading_data_summary, hres]
  · intro env u hrm
    simp [resolve_standard_risk, hrm]
  · intro env
    simp [resolve_standard_risk]
  · intro env t rest ui s hres
    simp [prepare_trading_data_summary, hres]

/-- Claim C6 witness: the override 10 carried by uiRM is the resolved risk. -/
theorem C6_standard_risk_resolution_witness :
    uiRM.riskManagement = some { standard_risk_per_trade := some 10 } ∧
    resolve_standard_risk "" (some uiRM) = .num 10 :=
  ⟨rfl, C6_standard_risk_resolution.1 "" uiRM { standard_risk_per_trade := some 10 } 10
    rfl rfl⟩

/-- Splitting a list by a Bool predicate partitions its length. -/
theorem length_filter_add_length_filter_not {α : Type} (p : α → Bool) (l : List α) :
    (l.filter p).length + (l.filter (fun a => !(p a))).length = l.length := by
  induction l with
  | nil => rfl
  | cons a l ih =>
    cases hp : p a
    · simp [List.filter_cons, hp]
      omega
    · simp [List.filter_cons, hp]
      omega

/-- Claim C4: a losing trade classifies as a full stop exactly when its loss
magnitude lies in the inclusive band from 0.95 to 1.05 times the standard
risk; the remaining losing trades are the partial stops; and with
standardRisk 10 the losses -9.5 and -10.5 are full stops while -9.49 and
-10.51 are partial. -/
theorem C4_full_stop_band :
    (∀ (sr : ℚ) (t : RawTrade), t.closedPnl < 0 →
        (is_full_stop sr t = true ↔
          95 / 100 * sr ≤ |t.closedPnl| ∧ |t.closedPnl| ≤ 105 / 100 * sr)) ∧
    (∀ (sr : ℚ) (pnl : List RawTrade),
        (analyze_stop_loss_data pnl sr).1
          = ((losers pnl).filter (is_full_stop sr)).length ∧
        (analyze_stop_loss_data pnl sr).1 + (analyze_stop_loss_data pnl sr).2
          = (losers pnl).length ∧
        (analyze_stop_loss_data pnl sr).2
          = ((losers pnl).filter (fun t => !(is_full_stop sr t))).length) ∧
    is_full_stop 10 (mkStopTrade (-(9.5 : ℚ))) = true ∧
    is_full_stop 10 (mkStopTrade (-(9.49 : ℚ))) = false ∧
    is_full_stop 10 (mkStopTrade (-(10.5 : ℚ))) = true ∧
    is_full_stop 10 (mkStopTrade (-(10.51 : ℚ))) = false := by
  refine ⟨?_, ?_, ?_, ?_, ?_, ?_⟩
  · intro sr t _
    have h1 : full_stop_min sr = 95 / 100 * sr := by
      unfold full_stop_min full_stop_threshold
      ring
    have h2 : full_stop_max sr = 105 / 100 * sr := by
      unfold full_stop_max full_stop_threshold
      ring
    simp [is_full_stop, h1, h2]
  · intro sr pnl
    have hf := length_filter_add_length_filter_not (is_full_stop sr) (losers pnl)
    have hle : ((losers pnl).filter (is_full_stop sr)).length ≤ (losers pnl).length :=
      List.length_filter_le _ _
    refine ⟨rfl, ?_, ?_⟩
    · simp only [analyze_stop_loss_data]
      omega
    · simp only [analyze_stop_loss_data]
      omega
  · norm_num [is_full_stop, full_stop_min, full_stop_max, full_stop_threshold,
      mkStopTrade, abs_of_pos]
  · norm_num [is_full_stop, full_stop_min, full_stop_max, full_stop_threshold,
      mkStopTrade, abs_of_pos]
  · norm_num [is_full_stop, full_stop_min, full_stop_max, full_stop_threshold,
      mkStopTrade, abs_of_pos]
  · norm_num [is_full_stop, full_stop_min, full_stop_max, full_stop_threshold,
      mkStopTrade, abs_of_pos]

/-- Claim C4 witness: the band criterion applied to a concrete losing trade
(-10 with standardRisk 10). -/
theorem C4_full_stop_band_witness :
    (mkStopTrade (-10)).closedPnl < 0 ∧
    (is_full_stop 10 (mkStopTrade (-10)) = true ↔
      95 / 100 * 10 ≤ |(mkStopTrade (-10)).closedPnl| ∧
      |(mkStopTrade (-10)).closedPnl| ≤ 105 / 100 * 10) :=
  ⟨by decide, C4_full_stop_band.1 10 (mkStopTrade (-10)) (by decide)⟩

/-- Claim C7: winning plus losing trade counts never exceed the total count,
with equality exactly when no trade has zero closed pnl. -/
theorem C7_count_invariant (pnl : List RawTrade) :
    win_count pnl + loss_count pnl ≤ pnl.length ∧
    (win_count pnl + loss_count pnl = pnl.length ↔ ∀ t ∈ pnl, t.closedPnl ≠ 0) := by
  induction pnl with
  | nil => simp [win_count, loss_count, winners, losers]
  | cons t rest ih =>
    obtain ⟨ih1, ih2⟩ := ih
    rcases lt_trichotomy t.closedPnl 0 with h | h | h
    · have hw : win_count (t :: rest) = win_count rest := by
        simp [win_count, winners, List.filter_cons, lt_asymm h]
      have hl : loss_count (t :: rest) = loss_count rest + 1 := by
        simp [loss_count, losers, List.filter_cons, h]
      rw [hw, hl, List.length_cons]
      refine ⟨by omega, ?_, ?_⟩
      · intro he u hu
        rcases List.mem_cons.1 hu with rfl | hu2
        · exact ne_of_lt h
        · exact (ih2.1 (by omega)) u hu2
      · intro hall
        have := ih2.2 fun u hu => hall u (List.mem_cons_of_mem _ hu)
        omega
    · have hw : win_count (t :: rest) = win_count rest := by
        simp [win_count, winners, List.filter_cons, h]
      have hl : loss_count (t :: rest) = loss_count rest := by
        simp [loss_count, losers, List.filter_cons, h]
      rw [hw, hl, List.length_cons]
      refine ⟨by omega, ?_, ?_⟩
      · intro he
        exfalso
        omega
      · intro hall
        exact absurd h (hall t (List.mem_cons_self _ _))
    · have hw : win_count (t :: rest) = win_count rest + 1 := by
        simp [win_count, winners, List.filter_cons, h]
      have hl : loss_count (t :: rest) = loss_count rest := by
        simp [loss_count, losers, List.filter_cons, lt_asymm h]
      rw [hw, hl, List.length_cons]
      refine ⟨by omega, ?_, ?_⟩
      · intro he u hu
        rcases List.mem_cons.1 hu with rfl | hu2
        · exact ne_of_gt h
        · exact (ih2.1 (by omega)) u hu2
      · intro hall
        have := ih2.2 fun u hu => hall u (List.mem_cons_of_mem _ hu)
        omega

/-- Claim C7 witness: the invariant evaluated on one losing trade. -/
theorem C7_count_invariant_witness :
    win_count [lossTrade] + loss_count [lossTrade] ≤ [lossTrade].length ∧
    (win_count [lossTrade] + loss_count [lossTrade] = [lossTrade].length ↔
      ∀ t ∈ [lossTrade], t.closedPnl ≠ 0) :=
  C7_count_invariant [lossTrade]

/-- Membership in the first-appearance deduplication. -/
theorem mem_uniqueAux (x : String) (seen l : List String) :
    x ∈ uniqueAux seen l ↔ x ∈ l ∧ x ∉ seen := by
  induction l generalizing seen with
  | nil => simp [uniqueAux]
  | cons s rest ih =>
    by_cases hs : s ∈ seen
    · rw [uniqueAux, if_pos hs, ih]
      constructor
      · rintro ⟨hx, hns⟩
        exact ⟨List.mem_cons_of_mem _ hx, hns⟩
      · rintro ⟨hx, hns⟩
        rcases List.mem_cons.1 hx with rfl | h2
        · exact absurd hs hns
        · exact ⟨h2, hns⟩
    · rw [uniqueAux, if_neg hs]
      constructor
      · intro hx
        rcases List.mem_cons.1 hx with rfl | h2
        · exact ⟨List.mem_cons_self _ _, hs⟩
        · rcases (ih (s :: seen)).1 h2 with ⟨hr, hnss⟩
          exact ⟨List.mem_cons_of_mem _ hr,
            fun hseen => hnss (List.mem_cons_of_mem _ hseen)⟩
      · rintro ⟨hx, hns⟩
        rcases List.mem_cons.1 hx with rfl | h2
        · exact List.mem_cons_self _ _
        · by_cases hxs : x = s
          · subst hxs
            exact List.mem_cons_self _ _
          · refine List.mem_cons_of_mem _ ((ih (s :: seen)).2 ⟨h2, ?_⟩)
            intro hmem
            rcases List.mem_cons.1 hmem with h3 | h3
            · exact hxs h3
            · exact hns h3

/-- The first-appearance deduplication has no duplicates. -/
theorem nodup_uniqueAux (seen l : List String) : (uniqueAux seen l).Nodup := by
  induction l generalizing seen with
  | nil => simp [uniqueAux]
  | cons s rest ih =>
    by_cases hs : s ∈ seen
    · rw [uniqueAux, if_pos hs]
      exact ih seen
    · rw [uniqueAux, if_neg hs]
      refine List.nodup_cons.2 ⟨?_, ih (s :: seen)⟩
      intro hmem
      exact ((mem_uniqueAux s (s :: seen) rest).1 hmem).2 (List.mem_cons_self _ _)

/-- Mapping a constant one and summing counts the length. -/
theorem sum_map_one {α : Type} (l : List α) : (l.map fun _ => (1 : ℕ)).sum = l.length := by
  induction l with
  | nil => rfl
  | cons a l ih =>
    simp [ih]
    omega

/-- Pointwise sums of mapped functions split. -/
theorem sum_map_add_distrib {κ M : Type} [AddCommMonoid M] (f g : κ → M) (l : List κ) :
    (l.map fun x => f x + g x).sum = (l.map f).sum + (l.map g).sum := by
  induction l with
  | nil => simp
  | cons a l ih =>
    simp only [List.map_cons, List.sum_cons, ih]
    abel

/-- Summing an indicator of a key over a duplicate-free list that contains
that key yields the single value. -/
theorem sum_map_ite_single {M : Type} [AddCommMonoid M] (c : String) (v : M) :
    ∀ syms : List String, syms.Nodup → c ∈ syms →
      (syms.map fun s => if c = s then v else 0).sum = v := by
  intro syms
  induction syms with
  | nil =>
    intro _ hc
    exact absurd hc (List.not_mem_nil _)
  | cons s rest ih =>
    intro hnd hc
    rcases List.mem_cons.1 hc with rfl | hc2
    · have hz : (rest.map fun u => if c = u then v else 0).sum = 0 := by
        apply List.sum_eq_zero
        intro x hx
        rcases List.mem_map.1 hx with ⟨u, hu, rfl⟩
        have hcu : ¬ c = u := by
          intro he
          refine (List.nodup_cons.1 hnd).1 ?_
          rw [he]
          exact hu
        rw [if_neg hcu]
      simp [hz]
    · have hcs : ¬ c = s := by
        intro he
        subst he
        exact (List.nodup_cons.1 hnd).1 hc2
      simp only [List.map_cons, List.sum_cons, if_neg hcs]
      rw [zero_add]
      exact ih (List.nodup_cons.1 hnd).2 hc2

/-- Summing any trade statistic fiberwise over a duplicate-free covering list
of symbols equals summing it over all trades. -/
theorem sum_fibers {M : Type} [AddCommMonoid M] (f : RawTrade → M) (l : List RawTrade) :
    ∀ syms : List String, syms.Nodup → (∀ t ∈ l, t.symbol ∈ syms) →
      (syms.map fun s => ((l.filter fun t => decide (t.symbol = s)).map f).sum).sum
        = (l.map f).sum := by
  induction l with
  | nil =>
    intro syms _ _
    simp
  | cons t l ih =>
    intro syms hnd hcov
    have hstep : (fun s => (((t :: l).filter fun u => decide (u.symbol = s)).map f).sum)
        = (fun s => (if t.symbol = s then f t else 0)
            + ((l.filter fun u => decide (u.symbol = s)).map f).sum) := by
      funext s
      by_cases h : t.symbol = s
      · simp [List.filter_cons, h]
      · simp [List.filter_cons, h]
    rw [hstep, sum_map_add_distrib,
      sum_map_ite_single t.symbol (f t) syms hnd (hcov t (List.mem_cons_self _ _)),
      ih syms hnd fun u hu => hcov u (List.mem_cons_of_mem _ hu)]
    simp

/-- Claim C10: the per-symbol grouping partitions the trades: the trade
counts of the symbol rows add up to the total trade count, and the
per-symbol pnl sums add up to the overall total pnl. -/
theorem C10_symbol_partition (pnl : List RawTrade) :
    ((symbols_dict pnl).map (fun p => p.2.trade_count)).sum = pnl.length ∧
    ((symbols_dict pnl).map (fun p => p.2.total_pnl)).sum = total_pnl pnl := by
  have hnd : (unique_symbols pnl).Nodup := by
    unfold unique_symbols
    exact nodup_uniqueAux _ _
  have hcov : ∀ t ∈ pnl, t.symbol ∈ unique_symbols pnl := by
    intro t ht
    unfold unique_symbols
    exact (mem_uniqueAux _ _ _).2 ⟨List.mem_map_of_mem _ ht, List.not_mem_nil _⟩
  constructor
  · have h1 := sum_fibers (fun _ => (1 : ℕ)) pnl (unique_symbols pnl) hnd hcov
    have h2 : (fun s => (symbol_performance pnl s).trade_count)
        = (fun s => ((pnl.filter fun t => decide (t.symbol = s)).map fun _ => (1 : ℕ)).sum) := by
      funext s
      rw [sum_map_one]
      rfl
    calc ((symbols_dict pnl).map (fun p => p.2.trade_count)).sum
        = ((unique_symbols pnl).map fun s => (symbol_performance pnl s).trade_count).sum := by
          simp [symbols_dict, List.map_map, Function.comp_def]
      _ = ((unique_symbols pnl).map fun s =>
            ((pnl.filter fun t => decide (t.symbol = s)).map fun _ => (1 : ℕ)).sum).sum := by
          rw [h2]
      _ = (pnl.map fun _ => (1 : ℕ)).sum := h1
      _ = pnl.length := sum_map_one pnl
  · have h1 := sum_fibers (fun t => t.closedPnl) pnl (unique_symbols pnl) hnd hcov
    have h2 : (fun s => (symbol_performance pnl s).total_pnl)
        = (fun s => ((pnl.filter fun t => decide (t.symbol = s)).map fun t => t.closedPnl).sum) := by
      funext s
      rfl
    calc ((symbols_dict pnl).map (fun p => p.2.total_pnl)).sum
        = ((unique_symbols pnl).map fun s => (symbol_performance pnl s).total_pnl).sum := by
          simp [symbols_dict, List.map_map, Function.comp_def]
      _ = ((unique_symbols pnl).map fun s =>
            ((pnl.filter fun t => decide (t.symbol = s)).map fun t => t.closedPnl).sum).sum := by
          rw [h2]
      _ = (pnl.map fun t => t.closedPnl).sum := h1
      _ = total_pnl pnl := rfl

/-- The idxmax fold picks an element of the candidate list. -/
theorem foldl_pick_mem {κ : Type} (f : κ → ℚ) (k : κ) (ks : List κ) :
    ks.foldl (fun b c => if f b < f c then c else b) k ∈ k :: ks := by
  induction ks generalizing k with
  | nil => simp [List.foldl]
  | cons c ks ih =>
    simp only [List.foldl]
    by_cases h : f k < f c
    · rw [if_pos h]
      exact List.mem_cons_of_mem _ (ih c)
    · rw [if_neg h]
      rcases List.mem_cons.1 (ih k) with h1 | h1
      · rw [h1]
        exact List.mem_cons_self _ _
      · exact List.mem_cons_of_mem _ (List.mem_cons_of_mem _ h1)

/-- The idxmax fold picks a maximal value. -/
theorem foldl_pick_le {κ : Type} (f : κ → ℚ) (k : κ) (ks : List κ) :
    ∀ x ∈ k :: ks, f x ≤ f (ks.foldl (fun b c => if f b < f c then c else b) k) := by
  induction ks generalizing k with
  | nil =>
    intro x hx
    rcases List.mem_cons.1 hx with rfl | h
    · simp [List.foldl]
    · exact absurd h (List.not_mem_nil _)
  | cons c ks ih =>
    intro x hx
    simp only [List.foldl]
    by_cases h : f k < f c
    · rw [if_pos h]
      rcases List.mem_cons.1 hx with rfl | hx2
      · exact le_trans (le_of_lt h) (ih c c (List.mem_cons_self _ _))
      · rcases List.mem_cons.1 hx2 with rfl | hx3
        · exact ih x x (List.mem_cons_self _ _)
        · exact ih c x (List.mem_cons_of_mem _ hx3)
    · rw [if_neg h]
      rcases List.mem_cons.1 hx with rfl | hx2
      · exact ih x x (List.mem_cons_self _ _)
      · rcases List.mem_cons.1 hx2 with rfl | hx3
        · exact le_trans (le_of_not_lt h) (ih k k (List.mem_cons_self _ _))
        · exact ih k x (List.mem_cons_of_mem _ hx3)

/-- On a strictly increasing candidate list the idxmax fold returns the first
index attaining the maximum: any candidate with the same value is at least as
large. -/
theorem foldl_pick_first (f : ℕ → ℚ) (k : ℕ) (ks : List ℕ)
    (hp : (k :: ks).Pairwise (· < ·)) :
    ∀ x ∈ k :: ks, f x = f (ks.foldl (fun b c => if f b < f c then c else b) k) →
      ks.foldl (fun b c => if f b < f c then c else b) k ≤ x := by
  induction ks generalizing k with
  | nil =>
    intro x hx _
    rcases List.mem_cons.1 hx with rfl | h
    · simp [List.foldl]
    · exact absurd h (List.not_mem_nil _)
  | cons c ks ih =>
    intro x hx hfx
    simp only [List.foldl] at hfx ⊢
    have hkc : k < c := (List.pairwise_cons.1 hp).1 c (List.mem_cons_self _ _)
    by_cases h : f k < f c
    · rw [if_pos h] at hfx ⊢
      have hp2 : (c :: ks).Pairwise (· < ·) := (List.pairwise_cons.1 hp).2
      rcases List.mem_cons.1 hx with rfl | hx2
      · exfalso
        have hcle : f c ≤ f (ks.foldl (fun b c2 => if f b < f c2 then c2 else b) c) :=
          foldl_pick_le f c ks c (List.mem_cons_self _ _)
        rw [← hfx] at hcle
        exact absurd h (not_lt.2 hcle)
      · exact ih c hp2 x hx2 hfx
    · rw [if_neg h] at hfx ⊢
      have hp2 : (k :: ks).Pairwise (· < ·) := by
        rcases List.pairwise_cons.1 hp with ⟨h1, h2⟩
        rcases List.pairwise_cons.1 h2 with ⟨_, h4⟩
        exact List.pairwise_cons.2 ⟨fun a ha => h1 a (List.mem_cons_of_mem _ ha), h4⟩
      rcases List.mem_cons.1 hx with rfl | hx2
      · exact ih x hp2 x (List.mem_cons_self _ _) hfx
      · rcases List.mem_cons.1 hx2 with rfl | hx3
        · have hck : f x ≤ f k := le_of_not_lt h
          have hkle : f k ≤ f (ks.foldl (fun b c2 => if f b < f c2 then c2 else b) k) :=
            foldl_pick_le f k ks k (List.mem_cons_self _ _)
          have h5 : f (ks.foldl (fun b c2 => if f b < f c2 then c2 else b) k) ≤ f k := by
            rw [← hfx]
            exact hck
          have hfk : f k = f (ks.foldl (fun b c2 => if f b < f c2 then c2 else b) k) :=
            le_antisymm hkle h5
          exact le_trans (ih k hp2 k (List.mem_cons_self _ _) hfk) (le_of_lt hkc)
        · exact ih k hp2 x (List.mem_cons_of_mem _ hx3) hfx

/-- idxmin is idxmax of the negated statistic. -/
theorem idxmin_eq_idxmax_neg (f : ℕ → ℚ) (l : List ℕ) :
    idxmin f l = idxmax (fun h => -(f h)) l := by
  cases l with
  | nil => rfl
  | cons k ks => simp only [idxmin, idxmax, neg_lt_neg_iff]

/-- idxmax on a nonempty strictly increasing list returns the smallest key
attaining the maximal value. -/
theorem idxmax_spec (f : ℕ → ℚ) (l : List ℕ) (hl : l ≠ [])
    (hp : l.Pairwise (· < ·)) :
    ∃ b, idxmax f l = some b ∧ b ∈ l ∧ (∀ h ∈ l, f h ≤ f b) ∧
      (∀ h ∈ l, f h = f b → b ≤ h) := by
  cases l with
  | nil => exact absurd rfl hl
  | cons k ks =>
    exact ⟨ks.foldl (fun b c => if f b < f c then c else b) k, rfl,
      foldl_pick_mem f k ks, foldl_pick_le f k ks, foldl_pick_first f k ks hp⟩

/-- idxmin on a nonempty strictly increasing list returns the smallest key
attaining the minimal value. -/
theorem idxmin_spec (f : ℕ → ℚ) (l : List ℕ) (hl : l ≠ [])
    (hp : l.Pairwise (· < ·)) :
    ∃ w, idxmin f l = some w ∧ w ∈ l ∧ (∀ h ∈ l, f w ≤ f h) ∧
      (∀ h ∈ l, f h = f w → w ≤ h) := by
  obtain ⟨w, hw, hmem, hle, hfirst⟩ := idxmax_spec (fun h => -(f h)) l hl hp
  refine ⟨w, ?_, hmem, ?_, ?_⟩
  · rw [idxmin_eq_idxmax_neg]
    exact hw
  · intro h hh
    exact neg_le_neg_iff.1 (hle h hh)
  · intro h hh hfh
    refine hfirst h hh ?_
    rw [hfh]

/-- Every UTC hour index is below 24. -/
theorem hour_of_lt_24 (t : RawTrade) : hour_of t < 24 :=
  Nat.mod_lt _ (by norm_num)

/-- A nonempty trade list populates at least one hour bucket. -/
theorem hours_with_data_ne_nil {pnl : List RawTrade} (h : pnl ≠ []) :
    hours_with_data pnl ≠ [] := by
  cases pnl with
  | nil => exact absurd rfl h
  | cons t rest =>
    have hmem : hour_of t ∈ hours_with_data (t :: rest) := by
      unfold hours_with_data
      refine List.mem_filter.2 ⟨List.mem_range.2 (hour_of_lt_24 t), ?_⟩
      exact List.any_eq_true.2 ⟨t, List.mem_cons_self _ _, by simp⟩
    exact List.ne_nil_of_mem hmem

/-- The hour buckets are listed in strictly increasing order, as the groupby
over the hour key sorts them. -/
theorem hours_with_data_pairwise (pnl : List RawTrade) :
    (hours_with_data pnl).Pairwise (· < ·) := by
  have hr : (List.range 24).Pairwise (· < ·) := List.pairwise_lt_range 24
  exact List.Pairwise.sublist (List.filter_sublist _) hr

/-- Claim C8: on nonempty input, best_hour is the argmax and worst_hour the
argmin of the mean closed pnl over the hours that have at least one trade,
and ties resolve to the smaller hour index. -/
theorem C8_best_worst_hour (pnl : List RawTrade) (hne : pnl ≠ []) :
    ∃ b w, best_hour pnl = some b ∧ worst_hour pnl = some w ∧
      b ∈ hours_with_data pnl ∧ w ∈ hours_with_data pnl ∧
      (∀ h ∈ hours_with_data pnl, hour_mean pnl h ≤ hour_mean pnl b) ∧
      (∀ h ∈ hours_with_data pnl, hour_mean pnl w ≤ hour_mean pnl h) ∧
      (∀ h ∈ hours_with_data pnl, hour_mean pnl h = hour_mean pnl b → b ≤ h) ∧
      (∀ h ∈ hours_with_data pnl, hour_mean pnl h = hour_mean pnl w → w ≤ h) := by
  have hnil : hours_with_data pnl ≠ [] := hours_with_data_ne_nil hne
  have hp : (hours_with_data pnl).Pairwise (· < ·) := hours_with_data_pairwise pnl
  obtain ⟨b, hb, hbm, hble, hbf⟩ := idxmax_spec (hour_mean pnl) _ hnil hp
  obtain ⟨w, hw, hwm, hwle, hwf⟩ := idxmin_spec (hour_mean pnl) _ hnil hp
  refine ⟨b, w, ?_, ?_, hbm, hwm, hble, hwle, hbf, hwf⟩
  · unfold best_hour
    exact hb
  · unfold worst_hour
    exact hw

/-- Claim C8 witness: the argmax and argmin characterisation evaluated on a
concrete one-trade list. -/
theorem C8_best_worst_hour_witness :
    [w8a] ≠ ([] : List RawTrade) ∧
    (∃ b w, best_hour [w8a] = some b ∧ worst_hour [w8a] = some w ∧
      b ∈ hours_with_data [w8a] ∧ w ∈ hours_with_data [w8a] ∧
      (∀ h ∈ hours_with_data [w8a], hour_mean [w8a] h ≤ hour_mean [w8a] b) ∧
      (∀ h ∈ hours_with_data [w8a], hour_mean [w8a] w ≤ hour_mean [w8a] h) ∧
      (∀ h ∈ hours_with_data [w8a], hour_mean [w8a] h = hour_mean [w8a] b → b ≤ h) ∧
      (∀ h ∈ hours_with_data [w8a], hour_mean [w8a] h = hour_mean [w8a] w → w ≤ h)) :=
  ⟨by decide, C8_best_worst_hour [w8a] (by decide)⟩

/-- Claim C9: the summary pipeline is a pure function of the environment
string, the trade list and the user input; two runs on equal inputs return
equal results (the embedding carries no mutable state, and the symbol map is
built in deterministic first-appearance order). -/
theorem C9_deterministic (env1 env2 : String) (p1 p2 : List RawTrade)
    (u1 u2 : Option UserInput) (henv : env1 = env2) (hp : p1 = p2) (hu : u1 = u2) :
    prepare_trading_data_summary env1 p1 u1 = prepare_trading_data_summary env2 p2 u2 := by
  subst henv
  subst hp
  subst hu
  rfl

/-- Claim C9 witness: two runs on the same concrete input agree. -/
theorem C9_deterministic_witness :
    prepare_trading_data_summary "" [tzTrade] (some uiRM)
      = prepare_trading_data_summary "" [tzTrade] (some uiRM) :=
  C9_deterministic "" "" [tzTrade] [tzTrade] (some uiRM) (some uiRM) rfl rfl rfl

end TradeJournal
